import Mathlib

/-!
Verification development for the bondify spaced-repetition core
(`backend/app/services/srs_service.py`, `backend/app/api/srs.py`,
`backend/app/models/user_wordlist.py`).

Shallow embedding conventions:
* The scheduler timeline is modelled as rational "days since epoch"; the
  forecast engine, which manipulates calendar fields, gets its own
  calendar model (`Date`, `UtcTime`).
* The SQLAlchemy session plus commit is modelled as a pure transformation
  of a `Db` value: all field assignments between the query and
  `db.commit()` become one atomic record update.
* The FSRS scheduler itself comes from the external `fsrs` package, which
  is not part of this repository; its behaviour is modelled from the
  spec (each such definition is marked "Modelled from the spec").
-/

namespace Bondify

/-- Card learning state, `fsrs.State` (New, Learning, Review, Relearning). -/
inductive CardState where
  | new
  | learning
  | review
  | relearning
deriving DecidableEq, Repr

/-- `card.state.name` as stored into `UserWordlist.fsrs_state`. -/
def CardState.name : CardState → String
  | .new => "New"
  | .learning => "Learning"
  | .review => "Review"
  | .relearning => "Relearning"

/-- Review rating, `fsrs.Rating` (Again=1, Hard=2, Good=3, Easy=4). -/
inductive Rating where
  | again
  | hard
  | good
  | easy
deriving DecidableEq, Repr

/-- `Rating(rating)`: the enum constructor accepts exactly 1..4 and raises
`ValueError` otherwise; the failure is modelled as `none`. -/
def Rating.fromInt? (r : ℤ) : Option Rating :=
  if r = 1 then some .again
  else if r = 2 then some .hard
  else if r = 3 then some .good
  else if r = 4 then some .easy
  else none

/-- An FSRS card as carried in `UserWordlist.fsrs_card_json` (deserialized).
Timestamps are rational days since an arbitrary epoch. Per the spec, `due`
is absent only while the card is `New` and never reviewed. -/
structure FsrsCard where
  state : CardState
  stability : ℚ
  difficulty : ℚ
  due : Option ℚ
  lastReview : Option ℚ
  reps : ℕ
  lapses : ℕ
deriving DecidableEq, Repr

/-- `Card()`: a fresh card in state New, never reviewed. -/
def newCard : FsrsCard :=
  { state := .new, stability := 0, difficulty := 0, due := none,
    lastReview := none, reps := 0, lapses := 0 }

/-- Scheduler configuration, `fsrs.Scheduler(desired_retention, maximum_interval)`. -/
structure SchedulerConfig where
  desiredRetention : ℚ
  maximumInterval : ℚ
deriving DecidableEq, Repr

/-- The scheduler the service constructs:
`Scheduler(desired_retention=0.9, maximum_interval=365)`. -/
def srsScheduler : SchedulerConfig :=
  { desiredRetention := 9/10, maximumInterval := 365 }

/-- Clamp a rational into `[lo, hi]`. -/
def clampQ (x lo hi : ℚ) : ℚ := max lo (min x hi)

/-- Modelled from the spec: the power-law forgetting curve
`R = (1 + elapsed / (9 * stability))⁻¹`. The `fsrs` package implementing it
is external to the repository. -/
def retrievabilityAt (stability elapsed : ℚ) : ℚ :=
  1 / (1 + elapsed / (9 * stability))

/-- Modelled from the spec: the per-rating initial-stability table used when
a `New` card is reviewed (positive, increasing with the rating). -/
def initStability : Rating → ℚ
  | .again => 2/5
  | .hard => 3/5
  | .good => 12/5
  | .easy => 29/5

/-- Modelled from the spec: the per-rating initial-difficulty function used
when a `New` card is reviewed (harder ratings start more difficult). -/
def initDifficulty : Rating → ℚ
  | .again => 7
  | .hard => 6
  | .good => 5
  | .easy => 4

/-- Modelled from the spec: the per-rating difficulty delta; the updated
difficulty is clamped into `[1, 10]`. -/
def ratingDelta : Rating → ℚ
  | .again => 1
  | .hard => 1/2
  | .good => 0
  | .easy => -1/2

/-- Modelled from the spec: the small positive floor below which a review
(in particular a same-day repeat) may not push stability. -/
def stabilityFloor : ℚ := 1/100

/-- Modelled from the spec: relative growth strength of the three success
ratings (Easy grows stability more than Good, Good more than Hard). -/
def growthCoeff : Rating → ℚ
  | .again => 0
  | .hard => 1/2
  | .good => 1
  | .easy => 3/2

/-- Modelled from the spec: on recall success stability grows, with magnitude
scaled by the retrievability `R` (more overdue ⇒ bigger gain), the updated
difficulty (easier items gain more) and the desired retention. -/
def successStability (cfg : SchedulerConfig) (s d R : ℚ) (r : Rating) : ℚ :=
  max stabilityFloor
    (s * (1 + growthCoeff r * ((11 - d) / 10) * (2 - R) * (1 / cfg.desiredRetention)))

/-- Modelled from the spec: on failure (Again) stability drops sharply,
floored at the small positive constant. -/
def failureStability (s : ℚ) : ℚ :=
  max stabilityFloor (s / 5)

/-- Modelled from the spec: the state transition table of §4.1 step 4. -/
def nextState : CardState → Rating → CardState
  | .new, _ => .learning
  | .learning, .again => .learning
  | .learning, .hard => .learning
  | .learning, .good => .review
  | .learning, .easy => .review
  | .review, .again => .relearning
  | .review, .hard => .review
  | .review, .good => .review
  | .review, .easy => .review
  | .relearning, .again => .relearning
  | .relearning, .hard => .relearning
  | .relearning, .good => .review
  | .relearning, .easy => .review

/-- Modelled from the spec: the minimum scheduling step (≈10 minutes
expressed in fractional days). -/
def minStep : ℚ := 7/1000

/-- Modelled from the spec: `interval_days = next_interval(stability,
desired_retention)` — the elapsed time at which the forgetting curve decays
to the desired retention — capped at `maximum_interval` and floored at the
minimum step. -/
def nextInterval (cfg : SchedulerConfig) (s : ℚ) : ℚ :=
  clampQ (9 * s * (1 / cfg.desiredRetention - 1)) minStep cfg.maximumInterval

/-- The immutable record the scheduler returns beside the updated card. -/
structure ReviewLog where
  rating : Rating
  reviewedAt : ℚ
  priorState : CardState
  elapsedDays : ℚ
  stability : ℚ
  difficulty : ℚ
deriving DecidableEq, Repr

/-- Modelled from the spec: `Scheduler.review_card(card, rating)` — pure and
deterministic; initializes stability/difficulty for a `New` card, otherwise
updates them from elapsed time, retrievability and the rating; steps the
state machine; schedules `due = now + interval`. -/
def reviewCard (cfg : SchedulerConfig) (card : FsrsCard) (r : Rating) (now : ℚ) :
    FsrsCard × ReviewLog :=
  let elapsed : ℚ := match card.lastReview with
    | none => 0
    | some lr => max 0 (now - lr)
  let sd : ℚ × ℚ :=
    if card.state = .new then
      (initStability r, initDifficulty r)
    else
      let R := retrievabilityAt card.stability elapsed
      let d := clampQ (card.difficulty + ratingDelta r) 1 10
      if r = .again then (failureStability card.stability, d)
      else (successStability cfg card.stability d R r, d)
  let interval := nextInterval cfg sd.1
  ({ state := nextState card.state r
     stability := sd.1
     difficulty := sd.2
     due := some (now + interval)
     lastReview := some now
     reps := card.reps + 1
     lapses := card.lapses + (if r = .again then 1 else 0) },
   { rating := r, reviewedAt := now, priorState := card.state,
     elapsedDays := elapsed, stability := sd.1, difficulty := sd.2 })

/-- Modelled from the spec: `Scheduler.get_card_retrievability(card)` —
recomputed live from `stability` and `now - last_review`; `0` for a card
that was never reviewed. -/
def cardRetrievability (card : FsrsCard) (now : ℚ) : ℚ :=
  match card.lastReview with
  | none => 0
  | some lr => retrievabilityAt card.stability (max 0 (now - lr))

/-- Python `int()` applied to a rational: truncation toward zero. -/
def pyInt (x : ℚ) : ℤ :=
  if 0 ≤ x then ⌊x⌋ else ⌈x⌉

/-- The `state_bonus` lookup of `_calculate_mastery` (with the dict's
default of 0, unreachable since the four names cover `CardState`). -/
def stateBonus : CardState → ℤ
  | .new => 0
  | .learning => 10
  | .review => 50
  | .relearning => 20

/-- `SpacedRepetitionService._calculate_mastery`:
`min(100, state_bonus + int(retrievability * 50))`. -/
def calculateMastery (card : FsrsCard) (now : ℚ) : ℤ :=
  min 100 (stateBonus card.state + pyInt (cardRetrievability card now * 50))

/-- The mastery formula as the spec words it — with `round` in place of the
code's `int()` truncation — kept for comparison with `calculateMastery`. -/
def masterySpecRound (card : FsrsCard) (now : ℚ) : ℤ :=
  min 100 (stateBonus card.state + round (cardRetrievability card now * 50))

/-- The spec's mastery formula amended to the code's behaviour: truncation
(equivalently, for nonnegative retrievability, the floor) instead of
rounding. -/
def masterySpecFloor (card : FsrsCard) (now : ℚ) : ℤ :=
  min 100 (stateBonus card.state + ⌊cardRetrievability card now * 50⌋)

/-- A `UserWordlist` row (`app/models/user_wordlist.py`). `fsrs_card_json`
is carried as its deserialized card; display-only columns resolved through
the `vocabulary` relationship live in `VocabularyCache` and stay opaque. -/
structure Entry where
  id : ℤ
  userId : ℤ
  vocabularyCacheId : ℤ
  addedAt : ℚ
  lastReviewed : Option ℚ
  reviewCount : ℕ
  masteryLevel : ℤ
  notes : Option String
  fsrsCard : Option FsrsCard
  fsrsDue : Option ℚ
  fsrsState : Option String
deriving DecidableEq, Repr

/-- The persistent state. The repository defines no review-log table; the
`reviewLogs` component exists so that "a `ReviewLog` record is stored" is
expressible, and the embedded service below, like the source, never
touches it. -/
structure Db where
  entries : List Entry
  reviewLogs : List ReviewLog
deriving DecidableEq, Repr

/-- Error taxonomy of the spec's §7 as far as the embedded paths can
produce it (`PersistenceError` is out of the pure model's scope). -/
inductive SrsError where
  | notFound
  | invalidRating
  | forbidden
deriving DecidableEq, Repr

/-- The response dict of `record_review` (the joined display word left out). -/
structure ReviewResp where
  id : ℤ
  state : String
  due : Option ℚ
  masteryLevel : ℤ
  reviewCount : ℕ
deriving DecidableEq, Repr

/-- The WHERE clause of `record_review`'s lookup:
`UserWordlist.id == word_id AND UserWordlist.user_id == user_id`. -/
def entryMatch (uid wid : ℤ) (e : Entry) : Bool :=
  e.id == wid && e.userId == uid

/-- Replace the first entry satisfying `p` (the single row the ORM fetched
and mutates in place; ids are unique by primary key). -/
def updateFirst (p : Entry → Bool) (f : Entry → Entry) : List Entry → List Entry
  | [] => []
  | e :: es => if p e then f e :: es else e :: updateFirst p f es

/-- The field assignments of `record_review` between the lookup and
`db.commit()`: review the FSRS card (a fresh `Card()` when
`fsrs_card_json` is null) and write back the scheduling fields. -/
def applyReviewToEntry (cfg : SchedulerConfig) (e : Entry) (r : Rating) (now : ℚ) : Entry :=
  let card := e.fsrsCard.getD newCard
  let reviewed := reviewCard cfg card r now
  { e with
    fsrsCard := some reviewed.1
    fsrsDue := reviewed.1.due
    fsrsState := some reviewed.1.state.name
    lastReviewed := some now
    reviewCount := e.reviewCount + 1
    masteryLevel := calculateMastery reviewed.1 now }

/-- `SpacedRepetitionService.record_review`: look the row up by
`(id, user_id)`, raise `ValueError` ("not found") when absent, convert the
integer rating (`Rating(rating)` raises on anything outside 1..4), review,
assign the fields and commit once. The scheduler's `review_log` is
discarded — the returned state's `reviewLogs` are the caller's, untouched. -/
def recordReviewService (cfg : SchedulerConfig) (db : Db) (uid wid rating : ℤ)
    (now : ℚ) : Db × Except SrsError ReviewResp :=
  match db.entries.find? (entryMatch uid wid) with
  | none => (db, .error .notFound)
  | some e =>
    match Rating.fromInt? rating with
    | none => (db, .error .invalidRating)
    | some r =>
      let e' := applyReviewToEntry cfg e r now
      ({ db with
         entries := updateFirst (entryMatch uid wid)
           (fun x => applyReviewToEntry cfg x r now) db.entries },
       .ok { id := e'.id, state := e'.fsrsState.getD "", due := e'.fsrsDue,
             masteryLevel := e'.masteryLevel, reviewCount := e'.reviewCount })

/-- The `/srs/review` endpoint: pydantic validates
`rating: int = Field(..., ge=1, le=4)` before the handler runs, so an
out-of-range rating is rejected with a validation error and the service —
hence any mutation — is never reached. -/
def recordReviewApi (cfg : SchedulerConfig) (db : Db) (uid wid rating : ℤ)
    (now : ℚ) : Db × Except SrsError ReviewResp :=
  if rating < 1 ∨ 4 < rating then (db, .error .invalidRating)
  else recordReviewService cfg db uid wid rating now

/-- The stats record of `get_srs_stats` / the `SRSStats` response model. -/
structure SrsStats where
  totalCards : ℕ
  dueToday : ℕ
  newCards : ℕ
  learningCards : ℕ
  reviewCards : ℕ
  relearningCards : ℕ
  averageRetention : ℚ
deriving DecidableEq, Repr

/-- The early-return value of `get_srs_stats` for a user with no entries. -/
def zeroStats : SrsStats :=
  { totalCards := 0, dueToday := 0, newCards := 0, learningCards := 0,
    reviewCards := 0, relearningCards := 0, averageRetention := 0 }

/-- Division that refuses a zero divisor, so that "the computation never
divides by zero" is expressible as the result being `some`. -/
def guardedDiv (a b : ℚ) : Option ℚ :=
  if b = 0 then none else some (a / b)

/-- Round half to even (Python's `round`), on exact rationals. -/
def roundHalfEven (x : ℚ) : ℤ :=
  let f := ⌊x⌋
  if x - f < 1/2 then f
  else if x - f > 1/2 then f + 1
  else if f % 2 = 0 then f else f + 1

/-- Python `round(x, 2)` on exact rationals. -/
def pyRound2 (x : ℚ) : ℚ :=
  (roundHalfEven (x * 100) : ℚ) / 100

/-- `SpacedRepetitionService.get_srs_stats`: early-return zeros when the
user has no entries; otherwise count by nullness of `fsrs_card_json`, by
`fsrs_due <= now`, and by `fsrs_state`, and average the mastery levels
(`sum / total if total > 0 else 0`, then `round(avg / 100, 2)`). -/
def getSrsStats (db : Db) (uid : ℤ) (now : ℚ) : Option SrsStats :=
  let entries := db.entries.filter (fun e => e.userId == uid)
  let total := entries.length
  if total = 0 then some zeroStats
  else
    let newCount := entries.countP (fun e => e.fsrsCard.isNone)
    let dueCount := entries.countP (fun e => e.fsrsDue.any (fun d => decide (d ≤ now)))
    let learning := entries.countP (fun e => e.fsrsState == some "Learning")
    let review := entries.countP (fun e => e.fsrsState == some "Review")
    let relearning := entries.countP (fun e => e.fsrsState == some "Relearning")
    let avg? := if 0 < total then
        guardedDiv ((entries.map (fun e => (e.masteryLevel : ℚ))).sum) (total : ℚ)
      else some 0
    avg?.map (fun avg =>
      { totalCards := total, dueToday := dueCount + newCount, newCards := newCount,
        learningCards := learning, reviewCards := review, relearningCards := relearning,
        averageRetention := pyRound2 (avg / 100) })

/-- The WHERE clause of `get_due_words`:
`user_id == uid AND (fsrs_due <= now OR fsrs_card_json IS NULL)`
(the SQL comparison is null-rejecting on a null `fsrs_due`). -/
def dueFilterB (now : ℚ) (e : Entry) : Bool :=
  e.fsrsCard.isNone || e.fsrsDue.any (fun d => decide (d ≤ now))

/-- The primary sort key `fsrs_card_json.is_(None).desc()`: rows whose card
json is null (new cards) come first. -/
def newRank (e : Entry) : ℕ :=
  if e.fsrsCard.isNone then 0 else 1

/-- SQLite `ORDER BY fsrs_due ASC` key order: NULLs sort first. -/
def dueLE : Option ℚ → Option ℚ → Prop
  | none, _ => True
  | some _, none => False
  | some x, some y => x ≤ y

/-- The full non-strict key order of the `ORDER BY` of `get_due_words`. -/
def keyLE (a b : Entry) : Prop :=
  newRank a < newRank b ∨ (newRank a = newRank b ∧ dueLE a.fsrsDue b.fsrsDue)

/-- Semantics of the `get_due_words` query: SQL `ORDER BY` fixes the
relative order of rows only up to the listed keys, so the observable
output is the `limit`-prefix of some permutation of the filtered rows
that is sorted by those keys. -/
def GetDueResult (db : Db) (uid : ℤ) (now : ℚ) (limit : ℕ) (out : List Entry) : Prop :=
  ∃ perm : List Entry,
    perm.Perm ((db.entries.filter (fun e => e.userId == uid)).filter (dueFilterB now)) ∧
    perm.Sorted keyLE ∧
    out = perm.take limit

/-- The claimed tie-break: among consecutive output rows with equal sort
keys, ids ascend. -/
def idTieAscending (out : List Entry) : Prop :=
  out.Chain' (fun a b => newRank a = newRank b → a.fsrsDue = b.fsrsDue → a.id ≤ b.id)

/-- A calendar date, as manipulated field-wise by `get_review_forecast`. -/
structure Date where
  year : ℤ
  month : ℕ
  day : ℕ
deriving DecidableEq, Repr

/-- Gregorian leap year. -/
def isLeapYear (y : ℤ) : Bool :=
  (y % 4 == 0 && y % 100 != 0) || (y % 400 == 0)

/-- Length of a month. -/
def daysInMonth (y : ℤ) (m : ℕ) : ℕ :=
  if m = 2 then (if isLeapYear y then 29 else 28)
  else if m = 4 ∨ m = 6 ∨ m = 9 ∨ m = 11 then 30
  else 31

/-- `datetime.replace(day=d)`: succeeds only for `1 ≤ d ≤` the length of
the (unchanged) month, otherwise raises
`ValueError: day is out of range for month`. -/
def replaceDay (dt : Date) (d : ℕ) : Option Date :=
  if 1 ≤ d ∧ d ≤ daysInMonth dt.year dt.month then some { dt with day := d } else none

/-- Strict chronological order on dates (component lexicographic). -/
def Date.ltB (a b : Date) : Bool :=
  decide (a.year < b.year) ||
    (a.year == b.year &&
      (decide (a.month < b.month) || (a.month == b.month && decide (a.day < b.day))))

/-- A UTC timestamp for the forecast model: a date plus seconds past
midnight. -/
structure UtcTime where
  date : Date
  secOfDay : ℕ
deriving DecidableEq, Repr

/-- `datetime` ≤, chronological. -/
def UtcTime.leB (a b : UtcTime) : Bool :=
  a.date.ltB b.date || (a.date == b.date && decide (a.secOfDay ≤ b.secOfDay))

/-- `datetime` <, chronological. -/
def UtcTime.ltB (a b : UtcTime) : Bool :=
  a.date.ltB b.date || (a.date == b.date && decide (a.secOfDay < b.secOfDay))

/-- The slice of a `UserWordlist` row that `get_review_forecast` reads,
with `fsrs_due` in the calendar model. -/
structure ForecastEntry where
  userId : ℤ
  fsrsDue : Option UtcTime
deriving DecidableEq, Repr

/-- One element of the forecast response. -/
structure ForecastDayOut where
  date : Date
  count : ℕ
deriving DecidableEq, Repr

/-- The day-`i` bucket bounds computed inside the loop of
`get_review_forecast`: midnight of today with `.replace(day=day+i)`,
then `.replace(day=day+1)` on the result — Python's `replace` raises
once the day number leaves the current month. -/
def forecastDayBounds (now : UtcTime) (i : ℕ) : Option (Date × Date) :=
  match replaceDay now.date (now.date.day + i) with
  | none => none
  | some dayStart =>
    match replaceDay dayStart (dayStart.day + 1) with
    | none => none
    | some dayEnd => some (dayStart, dayEnd)

/-- The per-day count: rows with `day_start <= fsrs_due < day_end`. -/
def countDueInDay (es : List ForecastEntry) (dayStart dayEnd : Date) : ℕ :=
  es.countP (fun e => e.fsrsDue.any (fun d =>
    UtcTime.leB ⟨dayStart, 0⟩ d && UtcTime.ltB d ⟨dayEnd, 0⟩))

/-- `SpacedRepetitionService.get_review_forecast`: select the user's rows
with a non-null `fsrs_due`, then for `i` in `range(days)` bucket them into
`[day_start, day_end)`; the unhandled `ValueError` from `replace` is the
`Except.error` case. -/
def getReviewForecast (entries : List ForecastEntry) (uid : ℤ) (now : UtcTime)
    (days : ℕ) : Except String (List ForecastDayOut) :=
  let es := entries.filter (fun e => e.userId == uid && e.fsrsDue.isSome)
  (List.range days).mapM (fun i =>
    match forecastDayBounds now i with
    | none => .error "ValueError: day is out of range for month"
    | some b => .ok { date := b.1, count := countDueInDay es b.1 b.2 })

/-- Whether an `Except` result is a success. -/
def isOkB {ε α : Type} : Except ε α → Bool
  | .ok _ => true
  | .error _ => false

/-- The scheduled interval `due - now` produced by one review. -/
def nextDueGap (cfg : SchedulerConfig) (card : FsrsCard) (r : Rating) (now : ℚ) : ℚ :=
  match (reviewCard cfg card r now).1.due with
  | some d => d - now
  | none => 0

/-- The identity and user-authored columns of a `UserWordlist` row that a
review must not touch. -/
def framePreserved (e e' : Entry) : Prop :=
  e'.id = e.id ∧ e'.userId = e.userId ∧ e'.vocabularyCacheId = e.vocabularyCacheId ∧
    e'.addedAt = e.addedAt ∧ e'.notes = e.notes

/-- A wordlist row of user 7 that never entered SRS. -/
def demoEntryNew : Entry :=
  { id := 1, userId := 7, vocabularyCacheId := 11, addedAt := 0,
    lastReviewed := none, reviewCount := 0, masteryLevel := 0, notes := none,
    fsrsCard := none, fsrsDue := none, fsrsState := none }

/-- A database holding just `demoEntryNew` and no review logs. -/
def demoDb1 : Db := { entries := [demoEntryNew], reviewLogs := [] }

/-- A wordlist row with id 1 owned by user 2. -/
def demoForeignEntry : Entry :=
  { id := 1, userId := 2, vocabularyCacheId := 11, addedAt := 0,
    lastReviewed := none, reviewCount := 0, masteryLevel := 0, notes := none,
    fsrsCard := none, fsrsDue := none, fsrsState := none }

/-- A database whose only row belongs to user 2. -/
def demoDb2 : Db := { entries := [demoForeignEntry], reviewLogs := [] }

/-- A card in state Review with stability 10, last reviewed at day 1. -/
def demoReviewCard : FsrsCard :=
  { state := .review, stability := 10, difficulty := 5, due := some 5,
    lastReview := some 1, reps := 2, lapses := 0 }

/-- An overdue Review row of user 7 with id 1, due at day 5. -/
def demoE1 : Entry :=
  { id := 1, userId := 7, vocabularyCacheId := 11, addedAt := 0,
    lastReviewed := some 1, reviewCount := 2, masteryLevel := 50, notes := none,
    fsrsCard := some demoReviewCard, fsrsDue := some 5, fsrsState := some "Review" }

/-- An overdue Review row of user 7 with id 2 and the same due (day 5). -/
def demoE2 : Entry :=
  { id := 2, userId := 7, vocabularyCacheId := 12, addedAt := 0,
    lastReviewed := some 1, reviewCount := 2, masteryLevel := 50, notes := none,
    fsrsCard := some demoReviewCard, fsrsDue := some 5, fsrsState := some "Review" }

/-- A database with two equal-due overdue rows of user 7. -/
def demoDueDb : Db := { entries := [demoE1, demoE2], reviewLogs := [] }

/-- A Review card with stability 11 last reviewed at day 99: at day 100 its
retrievability is `1 / (1 + 1/99) = 99/100`, so `50 · R = 49.5`. -/
def demoMasteryCard : FsrsCard :=
  { state := .review, stability := 11, difficulty := 5, due := some 100,
    lastReview := some 99, reps := 3, lapses := 0 }

/-! ## Helper lemmas -/

theorem nextInterval_pos (cfg : SchedulerConfig) (s : ℚ) : 0 < nextInterval cfg s := by
  unfold nextInterval clampQ
  exact lt_max_of_lt_left (by norm_num [minStep])

theorem retrievabilityAt_mem (s t : ℚ) (hS : 0 < s) (ht : 0 ≤ t) :
    0 ≤ retrievabilityAt s t ∧ retrievabilityAt s t ≤ 1 := by
  unfold retrievabilityAt
  have hq : 0 ≤ t / (9 * s) := div_nonneg ht (by positivity)
  have hden : (0:ℚ) < 1 + t / (9 * s) := by linarith
  exact ⟨div_nonneg zero_le_one hden.le, (div_le_one hden).2 (by linarith)⟩

theorem cardRetrievability_mem (card : FsrsCard) (now : ℚ) (h : 0 < card.stability) :
    0 ≤ cardRetrievability card now ∧ cardRetrievability card now ≤ 1 := by
  unfold cardRetrievability
  cases card.lastReview with
  | none => norm_num
  | some lr => exact retrievabilityAt_mem _ _ h (le_max_left 0 _)

theorem stateBonus_nonneg (s : CardState) : 0 ≤ stateBonus s := by
  cases s <;> norm_num [stateBonus]

theorem find?_updateFirst (p : Entry → Bool) (f : Entry → Entry)
    (hp : ∀ x, p (f x) = p x) :
    ∀ (l : List Entry) (e : Entry), l.find? p = some e →
      (updateFirst p f l).find? p = some (f e) := by
  intro l
  induction l with
  | nil => intro e h; simp [List.find?] at h
  | cons e0 es ih =>
    intro e h
    by_cases h0 : p e0
    · rw [List.find?_cons_of_pos _ h0] at h
      obtain rfl : e0 = e := by injection h
      unfold updateFirst
      rw [if_pos h0]
      exact List.find?_cons_of_pos _ (by rw [hp]; exact h0)
    · rw [List.find?_cons_of_neg _ h0] at h
      unfold updateFirst
      rw [if_neg h0, List.find?_cons_of_neg _ h0]
      exact ih e h

theorem reviewCard_due_isSome (cfg : SchedulerConfig) (card : FsrsCard) (r : Rating)
    (now : ℚ) : ((reviewCard cfg card r now).1.due).isSome = true := rfl

theorem framePreserved_refl (e : Entry) : framePreserved e e :=
  ⟨rfl, rfl, rfl, rfl, rfl⟩

theorem framePreserved_applyReview (cfg : SchedulerConfig) (x : Entry) (r : Rating)
    (now : ℚ) : framePreserved x (applyReviewToEntry cfg x r now) :=
  ⟨rfl, rfl, rfl, rfl, rfl⟩

theorem forall2_frame_refl (l : List Entry) : List.Forall₂ framePreserved l l := by
  induction l with
  | nil => exact List.Forall₂.nil
  | cons e es ih => exact List.Forall₂.cons (framePreserved_refl e) ih

theorem updateFirst_forall2 (p : Entry → Bool) (f : Entry → Entry)
    (hf : ∀ x, framePreserved x (f x)) :
    ∀ l : List Entry, List.Forall₂ framePreserved l (updateFirst p f l) := by
  intro l
  induction l with
  | nil => exact List.Forall₂.nil
  | cons e es ih =>
    unfold updateFirst
    by_cases h0 : p e
    · rw [if_pos h0]
      exact List.Forall₂.cons (hf e) (forall2_frame_refl es)
    · rw [if_neg h0]
      exact List.Forall₂.cons (framePreserved_refl e) ih

/-! ## Claims -/

/-- C2: the spec claims `forecast(owner, days)` returns one bucket per
consecutive calendar day for every starting date, including across a month
boundary. The code computes each bucket with
`day_start.replace(day=day_start.day + i)` and
`.replace(day=day_start.day + 1)`, which raises
`ValueError: day is out of range for month` as soon as the day number
leaves the current month — already for `days = 1` on the last day of a
month, and for any window crossing a month end. -/
theorem forecast_raises_at_month_end :
    getReviewForecast [] 7 ⟨⟨2024, 1, 31⟩, 3600⟩ 1 =
      Except.error "ValueError: day is out of range for month" ∧
    getReviewForecast [] 7 ⟨⟨2024, 1, 30⟩, 0⟩ 3 =
      Except.error "ValueError: day is out of range for month" :=
  ⟨rfl, rfl⟩

/-- C8: a rating outside {1,2,3,4} is rejected by the endpoint's request
validation (`Field(..., ge=1, le=4)`) with an invalid-rating error before
the service runs, and the persistent state is returned exactly as it was. -/
theorem invalid_rating_rejected_before_mutation (cfg : SchedulerConfig) (db : Db)
    (uid wid rating : ℤ) (now : ℚ) (h : rating < 1 ∨ 4 < rating) :
    recordReviewApi cfg db uid wid rating now = (db, Except.error SrsError.invalidRating) := by
  unfold recordReviewApi
  rw [if_pos h]

/-- Witness for C8 at the concrete out-of-range rating 5. -/
theorem invalid_rating_rejected_before_mutation_witness :
    ((5:ℤ) < 1 ∨ 4 < (5:ℤ)) ∧
      recordReviewApi srsScheduler demoDb1 7 1 5 0 =
        (demoDb1, Except.error SrsError.invalidRating) :=
  ⟨Or.inr (by norm_num),
   invalid_rating_rejected_before_mutation srsScheduler demoDb1 7 1 5 0 (Or.inr (by norm_num))⟩

/-- C9: `get_srs_stats` always produces a result (its average-retention
division is guarded by the `total == 0` early return, so it never divides
by zero), and for a user with no wordlist entries it returns all-zero
counts and average retention 0. -/
theorem stats_total_safe_and_zero_for_empty (db : Db) (uid : ℤ) (now : ℚ) :
    (getSrsStats db uid now).isSome ∧
      (db.entries.filter (fun e => e.userId == uid) = [] →
        getSrsStats db uid now = some zeroStats) := by
  unfold getSrsStats
  by_cases h : (db.entries.filter (fun e => e.userId == uid)).length = 0
  · constructor
    · simp [h]
    · intro _; simp [h]
  · have hpos : 0 < (db.entries.filter (fun e => e.userId == uid)).length :=
      Nat.pos_of_ne_zero h
    have hq : ((db.entries.filter (fun e => e.userId == uid)).length : ℚ) ≠ 0 := by
      exact_mod_cast h
    constructor
    · simp [h, hpos, guardedDiv, hq]
    · intro hfil
      rw [hfil] at h
      simp at h

/-- Witness for C9 at the empty database. -/
theorem stats_total_safe_and_zero_for_empty_witness :
    getSrsStats { entries := [], reviewLogs := [] } 0 0 = some zeroStats :=
  (stats_total_safe_and_zero_for_empty { entries := [], reviewLogs := [] } 0 0).2 rfl

/-- C4 counterexample: the claim says a review of a card owned by someone
else fails with a `Forbidden` error distinct from `NotFound`. The lookup of
`record_review` filters by `id == word_id AND user_id == user_id` and
raises the same `ValueError` ("not found", surfaced as HTTP 404) whether
the id belongs to another owner (id 1, owned by user 2, requested by
user 1) or does not exist at all (id 99): no `Forbidden` error is raised. -/
theorem wrong_owner_not_distinguished_cex :
    recordReviewApi srsScheduler demoDb2 1 1 3 0 =
      (demoDb2, Except.error SrsError.notFound) ∧
    recordReviewApi srsScheduler demoDb2 1 99 3 0 =
      (demoDb2, Except.error SrsError.notFound) ∧
    SrsError.notFound ≠ SrsError.forbidden :=
  ⟨rfl, rfl, by decide⟩

/-- C4 amended: when no row matches `(id = word_id, user_id = owner)` —
whether the id is absent altogether or the row belongs to a different
owner — `record_review` fails with the single not-found error, unchanged,
and the state is untouched. -/
theorem no_matching_row_yields_notFound (cfg : SchedulerConfig) (db : Db)
    (uid wid rating : ℤ) (now : ℚ) (h1 : 1 ≤ rating) (h2 : rating ≤ 4)
    (h : db.entries.find? (entryMatch uid wid) = none) :
    recordReviewApi cfg db uid wid rating now = (db, Except.error SrsError.notFound) := by
  unfold recordReviewApi recordReviewService
  rw [if_neg (by omega), h]

/-- Witness for C4 at the foreign-owned row of `demoDb2`. -/
theorem no_matching_row_yields_notFound_witness :
    ((1:ℤ) ≤ 3 ∧ (3:ℤ) ≤ 4 ∧ demoDb2.entries.find? (entryMatch 1 1) = none) ∧
      recordReviewApi srsScheduler demoDb2 1 1 3 0 =
        (demoDb2, Except.error SrsError.notFound) :=
  ⟨⟨by norm_num, by norm_num, rfl⟩,
   no_matching_row_yields_notFound srsScheduler demoDb2 1 1 3 0
     (by norm_num) (by norm_num) rfl⟩

/-- C1 counterexample: a successful review of the never-reviewed row of
`demoDb1` (user 7, id 1, rating Good) becomes observable — the row gets a
due date — while the review-log store stays empty: the books record no
`ReviewLog` for the advanced due date, because `record_review` discards
the `review_log` the scheduler returns and the repository has no
review-log table at all. -/
theorem review_succeeds_with_no_log_stored_cex :
    isOkB (recordReviewApi srsScheduler demoDb1 7 1 3 0).2 = true ∧
    (recordReviewApi srsScheduler demoDb1 7 1 3 0).1.reviewLogs = [] ∧
    ((recordReviewApi srsScheduler demoDb1 7 1 3 0).1.entries.find? (entryMatch 7 1)).any
        (fun e => e.fsrsDue.isSome) = true ∧
    demoEntryNew.fsrsDue = none ∧
    demoDb1.reviewLogs = [] :=
  ⟨rfl, rfl, rfl, rfl, rfl⟩

/-- C1 amended: the card update of a successful `record_review` is
committed as one transaction — the reviewed row becomes observable with
its new `last_reviewed` and a set due date — but the `ReviewLog` the
scheduler returns is discarded: the review-log store is never touched, so
no review has a corresponding persisted `ReviewLog` record. -/
theorem record_review_commits_card_without_log (cfg : SchedulerConfig) (db : Db)
    (uid wid rating : ℤ) (now : ℚ) :
    (recordReviewApi cfg db uid wid rating now).1.reviewLogs = db.reviewLogs ∧
    (isOkB (recordReviewApi cfg db uid wid rating now).2 = true →
      ((recordReviewApi cfg db uid wid rating now).1.entries.find? (entryMatch uid wid)).any
          (fun e => e.lastReviewed == some now && e.fsrsDue.isSome) = true) := by
  unfold recordReviewApi recordReviewService
  by_cases hr : rating < 1 ∨ 4 < rating
  · rw [if_pos hr]
    exact ⟨rfl, fun h => by simp [isOkB] at h⟩
  · rw [if_neg hr]
    cases hfind : db.entries.find? (entryMatch uid wid) with
    | none => exact ⟨rfl, fun h => by simp [isOkB] at h⟩
    | some e =>
      cases hconv : Rating.fromInt? rating with
      | none => exact ⟨rfl, fun h => by simp [isOkB] at h⟩
      | some r =>
        refine ⟨rfl, fun _ => ?_⟩
        have hfu := find?_updateFirst (entryMatch uid wid)
          (fun x => applyReviewToEntry cfg x r now) (fun x => rfl) db.entries e hfind
        rw [hfu]
        simp [applyReviewToEntry, reviewCard_due_isSome]

/-- Witness for C1's amended theorem at the concrete successful review of
`demoDb1`. -/
theorem record_review_commits_card_without_log_witness :
    isOkB (recordReviewApi srsScheduler demoDb1 7 1 3 0).2 = true ∧
      ((recordReviewApi srsScheduler demoDb1 7 1 3 0).1.entries.find? (entryMatch 7 1)).any
          (fun e => e.lastReviewed == some 0 && e.fsrsDue.isSome) = true :=
  ⟨rfl, (record_review_commits_card_without_log srsScheduler demoDb1 7 1 3 0).2 rfl⟩

/-- C10: a `record_review` call never changes a row's identity or
user-authored columns: whatever branch is taken, the resulting entry list
is pointwise frame-preserving (`id`, `user_id`, `vocabulary_cache_id`,
`added_at`, `notes` all kept) over the input list. -/
theorem record_review_preserves_frame (cfg : SchedulerConfig) (db : Db)
    (uid wid rating : ℤ) (now : ℚ) :
    List.Forall₂ framePreserved db.entries
      (recordReviewApi cfg db uid wid rating now).1.entries := by
  unfold recordReviewApi recordReviewService
  by_cases hr : rating < 1 ∨ 4 < rating
  · rw [if_pos hr]
    exact forall2_frame_refl db.entries
  · rw [if_neg hr]
    cases hfind : db.entries.find? (entryMatch uid wid) with
    | none => exact forall2_frame_refl db.entries
    | some e =>
      cases hconv : Rating.fromInt? rating with
      | none => exact forall2_frame_refl db.entries
      | some r =>
        exact updateFirst_forall2 _ _
          (fun x => framePreserved_applyReview cfg x r now) db.entries

/-- C5 counterexample: for the Review card with stability 11 reviewed one
day after its last review, retrievability is 99/100, so `50 · R = 49.5`:
the code's `int()` truncation gives mastery `min(100, 50 + 49) = 99` while
the spec's `round` gives `min(100, 50 + 50) = 100`. -/
theorem mastery_uses_truncation_cex :
    calculateMastery demoMasteryCard 100 = 99 ∧
    masterySpecRound demoMasteryCard 100 = 100 ∧
    calculateMastery demoMasteryCard 100 ≠ masterySpecRound demoMasteryCard 100 := by
  have hR : cardRetrievability demoMasteryCard 100 * 50 = 99/2 := by
    norm_num [cardRetrievability, demoMasteryCard, retrievabilityAt]
  have hfloor : ⌊(99/2 : ℚ)⌋ = 49 := by norm_num
  have hround : round (99/2 : ℚ) = 50 := by
    rw [round_eq]
    norm_num
  have h1 : calculateMastery demoMasteryCard 100 = 99 := by
    unfold calculateMastery pyInt
    rw [hR, if_pos (by norm_num : (0:ℚ) ≤ 99/2), hfloor]
    norm_num [stateBonus, demoMasteryCard]
  have h2 : masterySpecRound demoMasteryCard 100 = 100 := by
    unfold masterySpecRound
    rw [hR, hround]
    norm_num [stateBonus, demoMasteryCard]
  refine ⟨h1, h2, ?_⟩
  rw [h1, h2]
  norm_num

/-- C5 amended: `mastery` equals
`min(100, state_bonus(state) + floor(50 · retrievability))` — truncation,
not rounding — and the result is an integer in [0, 100]. -/
theorem mastery_is_floor_based_in_range (card : FsrsCard) (now : ℚ)
    (h : 0 < card.stability) :
    calculateMastery card now = masterySpecFloor card now ∧
    0 ≤ calculateMastery card now ∧ calculateMastery card now ≤ 100 := by
  have hR := cardRetrievability_mem card now h
  have h50 : 0 ≤ cardRetrievability card now * 50 := by nlinarith [hR.1]
  have hfloor : (0:ℤ) ≤ ⌊cardRetrievability card now * 50⌋ := Int.floor_nonneg.2 h50
  refine ⟨?_, ?_, ?_⟩
  · unfold calculateMastery masterySpecFloor pyInt
    rw [if_pos h50]
  · unfold calculateMastery pyInt
    rw [if_pos h50]
    exact le_min (by norm_num) (by have := stateBonus_nonneg card.state; linarith)
  · exact min_le_left _ _

/-- Witness for C5's amended theorem at the concrete card of the
counterexample. -/
theorem mastery_is_floor_based_in_range_witness :
    0 < demoMasteryCard.stability ∧
      (calculateMastery demoMasteryCard 100 = masterySpecFloor demoMasteryCard 100 ∧
       0 ≤ calculateMastery demoMasteryCard 100 ∧
       calculateMastery demoMasteryCard 100 ≤ 100) :=
  ⟨by norm_num [demoMasteryCard],
   mastery_is_floor_based_in_range demoMasteryCard 100 (by norm_num [demoMasteryCard])⟩

/-- C6: reviewing a card in state New with any rating, under the service's
scheduler configuration, yields a card whose state is Learning or Review,
whose stability is positive, and whose due date lies strictly after the
review time. -/
theorem new_card_review_yields_progress (card : FsrsCard) (r : Rating) (now : ℚ)
    (h : card.state = CardState.new) :
    ((reviewCard srsScheduler card r now).1.state = CardState.learning ∨
      (reviewCard srsScheduler card r now).1.state = CardState.review) ∧
    0 < (reviewCard srsScheduler card r now).1.stability ∧
    ∃ d, (reviewCard srsScheduler card r now).1.due = some d ∧ now < d := by
  have hstab : (reviewCard srsScheduler card r now).1.stability = initStability r := by
    simp [reviewCard, h]
  have hdue : (reviewCard srsScheduler card r now).1.due =
      some (now + nextInterval srsScheduler (reviewCard srsScheduler card r now).1.stability) :=
    rfl
  refine ⟨Or.inl ?_, ?_, ?_⟩
  · show nextState card.state r = CardState.learning
    rw [h]
    cases r <;> rfl
  · rw [hstab]
    cases r <;> norm_num [initStability]
  · refine ⟨_, hdue, ?_⟩
    have := nextInterval_pos srsScheduler (reviewCard srsScheduler card r now).1.stability
    linarith

/-- Witness for C6: a fresh `Card()` reviewed with rating Good at time 0. -/
theorem new_card_review_yields_progress_witness :
    newCard.state = CardState.new ∧
      (((reviewCard srsScheduler newCard Rating.good 0).1.state = CardState.learning ∨
        (reviewCard srsScheduler newCard Rating.good 0).1.state = CardState.review) ∧
      0 < (reviewCard srsScheduler newCard Rating.good 0).1.stability ∧
      ∃ d, (reviewCard srsScheduler newCard Rating.good 0).1.due = some d ∧ (0:ℚ) < d) :=
  ⟨rfl, new_card_review_yields_progress newCard Rating.good 0 rfl⟩

theorem clampQ_difficulty_mem (x : ℚ) : 1 ≤ clampQ x 1 10 ∧ clampQ x 1 10 ≤ 10 := by
  unfold clampQ
  exact ⟨le_max_left _ _, max_le (by norm_num) (min_le_right _ _)⟩

theorem nextInterval_srs_eq (s : ℚ) :
    nextInterval srsScheduler s = max minStep (min s 365) := by
  unfold nextInterval srsScheduler clampQ
  norm_num
  ring_nf

theorem nextInterval_srs_mono {s1 s2 : ℚ} (h : s1 ≤ s2) :
    nextInterval srsScheduler s1 ≤ nextInterval srsScheduler s2 := by
  rw [nextInterval_srs_eq, nextInterval_srs_eq]
  exact max_le_max le_rfl (min_le_min h le_rfl)

theorem failure_le_success_easy (S d R : ℚ) (hS : 0 < S) (_hd1 : 1 ≤ d) (hd2 : d ≤ 10)
    (_hR0 : 0 ≤ R) (hR1 : R ≤ 1) :
    failureStability S ≤ successStability srsScheduler S d R Rating.easy := by
  unfold failureStability successStability growthCoeff srsScheduler
  apply max_le_max le_rfl
  have hk : 0 ≤ (3/2 : ℚ) * ((11 - d) / 10) * (2 - R) * (1 / (9/10)) := by
    have h1 : (0:ℚ) ≤ (11 - d) / 10 := by linarith
    have h2 : (0:ℚ) ≤ 2 - R := by linarith
    positivity
  calc S / 5 ≤ S := by linarith
    _ = S * 1 := (mul_one S).symm
    _ ≤ S * (1 + 3/2 * ((11 - d) / 10) * (2 - R) * (1 / (9/10))) :=
        mul_le_mul_of_nonneg_left (by linarith) hS.le

theorem reviewCard_elapsed_nonneg (card : FsrsCard) (now : ℚ) :
    0 ≤ (match card.lastReview with
          | none => (0:ℚ)
          | some lr => max 0 (now - lr)) := by
  cases card.lastReview with
  | none => norm_num
  | some lr => exact le_max_left 0 _

theorem stability_again_le_easy (card : FsrsCard) (now : ℚ) (h : 0 < card.stability) :
    (reviewCard srsScheduler card Rating.again now).1.stability ≤
      (reviewCard srsScheduler card Rating.easy now).1.stability := by
  by_cases hs : card.state = CardState.new
  · simp only [reviewCard, hs, if_pos]
    norm_num [initStability]
  · have helapsed := reviewCard_elapsed_nonneg card now
    have hR := retrievabilityAt_mem card.stability _ h helapsed
    have hd := clampQ_difficulty_mem (card.difficulty + ratingDelta Rating.easy)
    simp only [reviewCard, hs, if_neg, if_false, reduceCtorEq, reduceIte]
    exact failure_le_success_easy card.stability _ _ h hd.1 hd.2 hR.1 hR.2

theorem nextDueGap_eq (cfg : SchedulerConfig) (card : FsrsCard) (r : Rating) (now : ℚ) :
    nextDueGap cfg card r now =
      nextInterval cfg (reviewCard cfg card r now).1.stability := by
  show now + nextInterval cfg (reviewCard cfg card r now).1.stability - now = _
  ring

/-- C7: holding the prior card state and the review time fixed, reviewing
with rating Again never schedules a strictly longer interval than
reviewing with rating Easy, under the service's scheduler configuration. -/
theorem again_never_longer_than_easy (card : FsrsCard) (now : ℚ)
    (h : 0 < card.stability) :
    nextDueGap srsScheduler card Rating.again now ≤
      nextDueGap srsScheduler card Rating.easy now := by
  rw [nextDueGap_eq, nextDueGap_eq]
  exact nextInterval_srs_mono (stability_again_le_easy card now h)

/-- Witness for C7 at the Review card with stability 10. -/
theorem again_never_longer_than_easy_witness :
    0 < demoReviewCard.stability ∧
      nextDueGap srsScheduler demoReviewCard Rating.again 10 ≤
        nextDueGap srsScheduler demoReviewCard Rating.easy 10 :=
  ⟨by norm_num [demoReviewCard],
   again_never_longer_than_easy demoReviewCard 10 (by norm_num [demoReviewCard])⟩

theorem demo_filter_eq :
    (demoDueDb.entries.filter (fun e => e.userId == 7)).filter (dueFilterB 10) =
      [demoE1, demoE2] := rfl

theorem demo_sorted12 : List.Sorted keyLE [demoE1, demoE2] := by
  constructor
  · intro b hb
    rw [List.mem_singleton] at hb
    subst hb
    exact Or.inr ⟨rfl, le_refl (5:ℚ)⟩
  · exact List.sorted_singleton _

theorem demo_sorted21 : List.Sorted keyLE [demoE2, demoE1] := by
  constructor
  · intro b hb
    rw [List.mem_singleton] at hb
    subst hb
    exact Or.inr ⟨rfl, le_refl (5:ℚ)⟩
  · exact List.sorted_singleton _

/-- C3 counterexample: `demoE1` and `demoE2` are two overdue Review rows of
the same user with the same due timestamp and ids 1 < 2. The `ORDER BY` of
`get_due_words` lists no key beyond (is-new, due), so both `[e2, e1]` and
`[e1, e2]` are valid outputs of the query: ids do not break the tie, and
two calls with no intervening writes may return differently ordered
lists. -/
theorem get_due_no_id_tiebreak_cex :
    GetDueResult demoDueDb 7 10 20 [demoE2, demoE1] ∧
    GetDueResult demoDueDb 7 10 20 [demoE1, demoE2] ∧
    ¬ idTieAscending [demoE2, demoE1] ∧
    demoE1.fsrsDue = demoE2.fsrsDue ∧ demoE1.id < demoE2.id := by
  refine ⟨⟨[demoE2, demoE1], ?_, demo_sorted21, rfl⟩,
    ⟨[demoE1, demoE2], ?_, demo_sorted12, rfl⟩, ?_, rfl, ?_⟩
  · rw [demo_filter_eq]
    exact List.Perm.swap demoE1 demoE2 []
  · rw [demo_filter_eq]
  · intro hch
    have hrel := (List.chain'_cons.mp hch).1
    have hle := hrel rfl rfl
    norm_num [demoE1, demoE2] at hle
  · norm_num [demoE1, demoE2]

/-- C3 amended: every output the `get_due_words` query semantics admits is
sorted by the keys the code actually orders by — new cards (null
`fsrs_card_json`) first, then ascending `fsrs_due` — and contains only the
owner's rows that are new or due; the relative order of rows with equal
keys (and hence determinism across repeated calls) is not guaranteed. -/
theorem get_due_key_sorted (db : Db) (uid : ℤ) (now : ℚ) (limit : ℕ)
    (out : List Entry) (h : GetDueResult db uid now limit out) :
    out.Sorted keyLE ∧ ∀ e ∈ out, (e.userId == uid) = true ∧ dueFilterB now e = true := by
  obtain ⟨perm, hperm, hsort, rfl⟩ := h
  constructor
  · exact List.Pairwise.sublist (List.take_sublist _ _) hsort
  · intro e he
    have hmem : e ∈ perm := List.take_subset _ _ he
    have hmem2 := hperm.subset hmem
    rw [List.mem_filter] at hmem2
    have hmem3 := hmem2.1
    rw [List.mem_filter] at hmem3
    exact ⟨hmem3.2, hmem2.2⟩

/-- Witness for C3's amended theorem at a concrete valid output of the
demo query. -/
theorem get_due_key_sorted_witness :
    GetDueResult demoDueDb 7 10 20 [demoE1, demoE2] ∧
      (List.Sorted keyLE [demoE1, demoE2] ∧
        ∀ e ∈ [demoE1, demoE2], (e.userId == (7:ℤ)) = true ∧ dueFilterB 10 e = true) := by
  have hg : GetDueResult demoDueDb 7 10 20 [demoE1, demoE2] := by
    refine ⟨[demoE1, demoE2], ?_, demo_sorted12, rfl⟩
    rw [demo_filter_eq]
  exact ⟨hg, get_due_key_sorted demoDueDb 7 10 20 [demoE1, demoE2] hg⟩

end Bondify
